import Mathlib

/-!
Verification of the `users` repository's data-access and validation layer.

The Go source is shallowly embedded:
* `internal/models/user.go` — the `User` and `UserUpdate` records;
* the validator package — `ValidateUser`, `ValidateUserUpdate`, `isValidEmail`
  (a fixed regular expression; its match semantics is embedded as an
  executable search over all decompositions of the string);
* the database package — `Health`, `CreateUser`, `GetUserByID`,
  `UpdateUserByID`, with the SQL statement builder embedded as the string
  and positional-parameter list the Go code assembles, and database effects
  (ping outcome, pool statistics, the row the store hands back) supplied as
  explicit inputs.

Go `string` is Lean `String`, Go `uint` is `Nat`, Go `int`/`int64` pool
counters are `Int` (with Go's truncated division `Int.tdiv`), `time.Time` is a
`Nat` timestamp whose Go zero value is `0`, and a Go `map[string]string` is a
function `String → Option String` where assignment is pointwise update.
-/

namespace Users

/-- Embedding of `models.User` (internal/models/user.go). `Created` models the
`time.Time` field as a timestamp; the Go zero value `time.Time{}` is `0`. -/
structure User where
  ID : String
  FirstName : String
  LastName : String
  Age : Nat
  Email : String
  Created : Nat
  deriving Repr, DecidableEq

/-- Embedding of `models.UserUpdate`: each field is a Go pointer, `none`
meaning nil (absent) and `some v` meaning a pointer to `v`. -/
structure UserUpdate where
  FirstName : Option String
  LastName : Option String
  Age : Option Nat
  Email : Option String
  deriving Repr, DecidableEq

/-! ## Email syntax check

The Go validator compiles the regular expression
`^[a-zA-Z0-9._%+-]+@[a-zA-Z0-9.-]+\.[a-zA-Z]{2,}$` and calls `MatchString`.
Anchored on both sides, the string matches exactly when it decomposes as
`local ++ "@" ++ domain ++ "." ++ tld` with each piece drawn from the three
character classes; the embedding below decides that by searching every
decomposition of the character list. -/

/-- Character class `[a-zA-Z0-9._%+-]` of the regular expression's local part.
`Char.isAlpha`/`Char.isDigit` cover exactly the ASCII ranges the class names. -/
def isLocalChar (c : Char) : Bool :=
  c.isAlpha || c.isDigit || c = '.' || c = '_' || c = '%' || c = '+' || c = '-'

/-- Character class `[a-zA-Z0-9.-]` of the regular expression's domain part. -/
def isDomainChar (c : Char) : Bool :=
  c.isAlpha || c.isDigit || c = '.' || c = '-'

/-- All decompositions of a list into a prefix-suffix pair. -/
def splits : List Char → List (List Char × List Char)
  | [] => [([], [])]
  | c :: cs => ([], c :: cs) :: (splits cs).map fun p => (c :: p.1, p.2)

/-- Does the split place `[a-zA-Z0-9.-]+\.[a-zA-Z]{2,}$` here: a literal dot,
a non-empty domain of domain characters before it, and at least two
alphabetic characters running to the end of the string. -/
def tailAt (q : List Char × List Char) : Bool :=
  match q.2 with
  | [] => false
  | c :: t => c = '.' && !q.1.isEmpty && q.1.all isDomainChar &&
      decide (2 ≤ t.length) && t.all Char.isAlpha

/-- Does the remainder after the `@` match `[a-zA-Z0-9.-]+\.[a-zA-Z]{2,}$`. -/
def matchTail (rest : List Char) : Bool :=
  (splits rest).any tailAt

/-- Does the split place the `@` here: a non-empty local part of local
characters before it and a matching domain-dot-tld remainder after it. -/
def emailAt (p : List Char × List Char) : Bool :=
  match p.2 with
  | [] => false
  | c :: rest => c = '@' && !p.1.isEmpty && p.1.all isLocalChar && matchTail rest

/-- Embedding of `isValidEmail`: `MatchString` of the anchored pattern
`^[a-zA-Z0-9._%+-]+@[a-zA-Z0-9.-]+\.[a-zA-Z]{2,}$`, i.e. some decomposition
of the whole string realises the pattern. -/
def isValidEmail (s : String) : Bool :=
  (splits s.data).any emailAt

/-! ## Validator -/

/-- Embedding of `ValidateUser`: `some msg` is a returned `error` with message
`msg`, `none` is Go `nil`. -/
def validateUser (u : User) : Option String :=
  if u.FirstName = "" then some "first name is required"
  else if u.LastName = "" then some "last name is required"
  else if !isValidEmail u.Email then some "invalid email address"
  else none

/-- Embedding of `ValidateUserUpdate`: each check fires only when the field's
pointer is non-nil. -/
def validateUserUpdate (u : UserUpdate) : Option String :=
  if u.FirstName.any (fun v => v = "") then some "first name is required"
  else if u.LastName.any (fun v => v = "") then some "last name is required"
  else if u.Email.any (fun v => !isValidEmail v) then some "invalid email address"
  else none

/-! ## Data access service -/

/-- A positional SQL parameter value: the Go code passes `string` and `uint`
values through the driver's `interface{}` slot. -/
inductive Value where
  | str (s : String)
  | nat (n : Nat)
  deriving Repr, DecidableEq

/-- Go string slicing `s[:len(s)-2]`, embedded at the character-list level:
Go slices by byte, and every string the builder slices is ASCII, where bytes
and characters coincide. -/
def goDropLast2 (s : String) : String := ⟨s.data.take (s.data.length - 2)⟩

/-- Embedding of the statement builder inside `UpdateUserByID`: the query
string and positional parameter list the Go code assembles before calling
`QueryRow`. Field checks run in source order first_name, last_name, age,
email; `query[:len(query)-2]` is `goDropLast2`. -/
def buildUpdateQuery (id : String) (updates : UserUpdate) : String × List Value :=
  let query := "UPDATE users SET "
  let params : List Value := []
  let paramId : Nat := 1
  let (query, params, paramId) :=
    match updates.FirstName with
    | some v => (query ++ "first_name = $" ++ toString paramId ++ ", ",
        params ++ [Value.str v], paramId + 1)
    | none => (query, params, paramId)
  let (query, params, paramId) :=
    match updates.LastName with
    | some v => (query ++ "last_name = $" ++ toString paramId ++ ", ",
        params ++ [Value.str v], paramId + 1)
    | none => (query, params, paramId)
  let (query, params, paramId) :=
    match updates.Age with
    | some v => (query ++ "age = $" ++ toString paramId ++ ", ",
        params ++ [Value.nat v], paramId + 1)
    | none => (query, params, paramId)
  let (query, params, paramId) :=
    match updates.Email with
    | some v => (query ++ "email = $" ++ toString paramId ++ ", ",
        params ++ [Value.str v], paramId + 1)
    | none => (query, params, paramId)
  let query := goDropLast2 query ++ " WHERE id = $" ++ toString paramId ++
    " RETURNING id, first_name, last_name, email, age"
  let params := params ++ [Value.str id]
  (query, params)

/-- A stored row of the `users` table; it carries a `created` column even
though no query of the service ever selects it. -/
structure DBRow where
  id : String
  first_name : String
  last_name : String
  age : Nat
  email : String
  created : Nat
  deriving Repr, DecidableEq

/-- Go's zero value of `models.User`, the state of `var user models.User`
before `Scan` fills it. -/
def zeroUser : User :=
  { ID := "", FirstName := "", LastName := "", Age := 0, Email := "", Created := 0 }

/-- Scanning `id, first_name, last_name, email, age` into a zero-valued
`models.User`, as both `GetUserByID` and `UpdateUserByID` do: exactly those
five fields are written. -/
def scanUser (id fn ln em : String) (age : Nat) : User :=
  { zeroUser with ID := id, FirstName := fn, LastName := ln, Email := em, Age := age }

/-- Embedding of `GetUserByID` on a found row: the row the store returns for
`SELECT id, first_name, last_name, email, age FROM users WHERE id = $1` is
scanned into a fresh zero-valued `models.User`. -/
def getUserByID (row : DBRow) : User :=
  scanUser row.id row.first_name row.last_name row.email row.age

/-- Column list of `GetUserByID`'s `SELECT` statement. -/
def getUserQueryColumns : List String :=
  ["id", "first_name", "last_name", "email", "age"]

/-- Column list of the `RETURNING` clause `buildUpdateQuery` appends. -/
def updateReturningColumns : List String :=
  ["id", "first_name", "last_name", "email", "age"]

/-- Embedding of `UpdateUserByID`'s scan of the `RETURNING` row: like
`GetUserByID`, the five returned columns land in a zero-valued `models.User`. -/
def updateReturnedUser (row : DBRow) : User :=
  scanUser row.id row.first_name row.last_name row.email row.age

/-- The row `CreateUser` inserts:
`INSERT INTO users (id, first_name, last_name, email, age) VALUES ($1, $2, $3, $4, $5)`. -/
structure InsertRow where
  id : String
  first_name : String
  last_name : String
  email : String
  age : Nat
  deriving Repr, DecidableEq

/-- Embedding of `CreateUser`. `freshId` stands for the `uuid.New()` value the
function mints. The Go function returns only an `error`; the line that would
write the minted id back into the caller's object (`user.ID = id.String()`) is
commented out in the source, so the pair returned here is (the row handed to
`Exec`, the caller's entity as it stands after the call). -/
def createUser (freshId : String) (user : User) : InsertRow × User :=
  ({ id := freshId, first_name := user.FirstName, last_name := user.LastName,
     email := user.Email, age := user.Age }, user)

/-! ## Health -/

/-- Pool statistics `sql.DB.Stats()` reports. `OpenConnections`, `InUse`,
`Idle` are Go `int`; `WaitCount`, `MaxIdleClosed`, `MaxLifetimeClosed` are Go
`int64`; all are embedded as `Int`. `WaitDuration` is the rendered
`time.Duration` string. -/
structure DBStats where
  OpenConnections : Int
  InUse : Int
  Idle : Int
  WaitCount : Int
  WaitDuration : String
  MaxIdleClosed : Int
  MaxLifetimeClosed : Int
  deriving Repr, DecidableEq

/-- A Go `map[string]string` as a function; absent keys map to `none`. -/
def StatsMap : Type := String → Option String

/-- Map assignment `m[k] = v`. -/
def setStat (m : StatsMap) (k v : String) : StatsMap :=
  fun q => if q = k then some v else m q

/-- The empty map `make(map[string]string)`. -/
def emptyStats : StatsMap := fun _ => none

/-- How a call to `Health` ends: `terminated` models `log.Fatalf`, which
prints and exits the process, so the `return stats` after it is dead code and
the snapshot never reaches the caller; `returned` is a normal return. -/
inductive HealthResult where
  | terminated (stats : StatsMap)
  | returned (stats : StatsMap)

/-- Did `Health` return to its caller (rather than kill the process)? -/
def HealthResult.isReturned : HealthResult → Bool
  | .terminated _ => false
  | .returned _ => true

/-- The snapshot a `HealthResult` carries (for `terminated`, the map as it
stood when `log.Fatalf` fired). -/
def HealthResult.snapshot : HealthResult → StatsMap
  | .terminated m => m
  | .returned m => m

/-- Embedding of `Health`. `pingErr` is the outcome of
`s.db.PingContext(ctx)` under the one-second timeout: `none` on success,
`some e` on failure or timeout with error text `e`; `d` the pool statistics.
Statement order follows the Go source line by line, including the four
threshold checks that each overwrite `stats["message"]`. -/
def health (pingErr : Option String) (d : DBStats) : HealthResult :=
  match pingErr with
  | some e =>
      let stats := setStat emptyStats "status" "down"
      let stats := setStat stats "error" ("db down: " ++ e)
      HealthResult.terminated stats
  | none =>
      let stats := setStat emptyStats "status" "up"
      let stats := setStat stats "message" "It's healthy"
      let stats := setStat stats "open_connections" (toString d.OpenConnections)
      let stats := setStat stats "in_use" (toString d.InUse)
      let stats := setStat stats "idle" (toString d.Idle)
      let stats := setStat stats "wait_count" (toString d.WaitCount)
      let stats := setStat stats "wait_duration" d.WaitDuration
      let stats := setStat stats "max_idle_closed" (toString d.MaxIdleClosed)
      let stats := setStat stats "max_lifetime_closed" (toString d.MaxLifetimeClosed)
      let stats := if d.OpenConnections > 40 then
          setStat stats "message" "The database is experiencing heavy load."
        else stats
      let stats := if d.WaitCount > 1000 then
          setStat stats "message"
            "The database has a high number of wait events, indicating potential bottlenecks."
        else stats
      let stats := if d.MaxIdleClosed > Int.tdiv d.OpenConnections 2 then
          setStat stats "message"
            "Many idle connections are being closed, consider revising the connection pool settings."
        else stats
      let stats := if d.MaxLifetimeClosed > Int.tdiv d.OpenConnections 2 then
          setStat stats "message"
            "Many connections are being closed due to max lifetime, consider increasing max lifetime or revising the connection usage pattern."
        else stats
      HealthResult.returned stats

/-! ## Specification-side descriptions

The definitions below restate, in the spec's vocabulary, what the statements
built by the service are supposed to look like; the theorems compare them
with the embedded builder. -/

/-- Specification-side assignment list: the (column, value) pairs for exactly
the present fields of the update, in the fixed order first_name, last_name,
age, email. -/
def setAssignments (u : UserUpdate) : List (String × Value) :=
  (match u.FirstName with | some v => [("first_name", Value.str v)] | none => []) ++
  (match u.LastName with | some v => [("last_name", Value.str v)] | none => []) ++
  (match u.Age with | some v => [("age", Value.nat v)] | none => []) ++
  (match u.Email with | some v => [("email", Value.str v)] | none => [])

/-- Assignment fragments `col = $i` for a column list, with consecutive
positional parameter indices starting at `i`. -/
def fragments (i : Nat) : List String → List String
  | [] => []
  | c :: cs => (c ++ " = $" ++ toString i) :: fragments (i + 1) cs

/-- Pieces joined by `, `, with no separator after the last. -/
def sepByComma : List String → String
  | [] => ""
  | [a] => a
  | a :: as => a ++ ", " ++ sepByComma as

/-- Fragments each followed by `, `, concatenated — the trailing-comma shape
the Go builder accumulates before slicing. -/
def joinFrags (i : Nat) : List String → String
  | [] => ""
  | c :: cs => c ++ " = $" ++ toString i ++ ", " ++ joinFrags (i + 1) cs

/-- Rendering of an assignment list the way the Go builder renders it: each
assignment contributes `col = $i, ` with consecutive indices from 1, the
final two characters are cut, and the `WHERE` / `RETURNING` tail follows with
the identity parameter one past the last assignment; the parameters are the
assignment values followed by the identity. -/
def renderUpdate (id : String) (as : List (String × Value)) : String × List Value :=
  (goDropLast2 ("UPDATE users SET " ++ joinFrags 1 (as.map Prod.fst)) ++
    " WHERE id = $" ++ toString (as.length + 1) ++
    " RETURNING id, first_name, last_name, email, age",
   as.map Prod.snd ++ [Value.str id])

/-- Does the update carry at least one present field? -/
def hasPresentField (u : UserUpdate) : Bool :=
  u.FirstName.isSome || u.LastName.isSome || u.Age.isSome || u.Email.isSome

/-- Specification-side statement for a partial update, written as the spec
describes it: the present assignments joined by `, ` (no trailing-comma
trimming), positional parameters `$1, $2, …` in assignment order, the
identity filter at one past the last assignment index, and the post-update
row requested back. -/
def specUpdateQuery (id : String) (u : UserUpdate) : String × List Value :=
  ("UPDATE users SET " ++
     sepByComma (fragments 1 ((setAssignments u).map Prod.fst)) ++
   " WHERE id = $" ++ toString ((setAssignments u).length + 1) ++
   " RETURNING id, first_name, last_name, email, age",
   (setAssignments u).map Prod.snd ++ [Value.str id])

/-- Slicing the final two characters undoes a trailing `, `. -/
theorem goDropLast2_append_comma (a : String) : goDropLast2 (a ++ ", ") = a := by
  apply String.ext
  simp [goDropLast2, String.data_append]

/-! ## Theorems -/

/-- C1: the claim says the zero-present-fields update is either rejected
before the store or special-cased into a no-op fetch, never a malformed
statement. The code does neither: `ValidateUserUpdate` accepts the empty
update, and the builder slices two bytes off `"UPDATE users SET "` itself,
emitting the malformed statement `UPDATE users SE WHERE id = $1 …`. -/
theorem C1_empty_update_malformed :
    buildUpdateQuery "u1" ⟨none, none, none, none⟩ =
      ("UPDATE users SE WHERE id = $1 RETURNING id, first_name, last_name, email, age",
       [Value.str "u1"]) ∧
    validateUserUpdate ⟨none, none, none, none⟩ = none :=
  ⟨rfl, rfl⟩

/-- C6: `CreateUser` inserts a freshly minted identity that does not depend on
any client-supplied `ID`, and the caller's entity — its `ID` field included —
is exactly as it was after the call; the minted identity is not written back. -/
theorem C6_create_fresh_identity (freshId : String) (user : User) :
    (createUser freshId user).1.id = freshId ∧
    (∀ otherId, (createUser freshId { user with ID := otherId }).1 =
      (createUser freshId user).1) ∧
    (createUser freshId user).2 = user :=
  ⟨rfl, fun _ => rfl, rfl⟩

/-- C8: `ValidateUser` never depends on the `Age` field: two users differing
only in age validate to the same result. -/
theorem C8_validateUser_ignores_age (u : User) (a : Nat) :
    validateUser { u with Age := a } = validateUser u :=
  rfl

/-- C9: neither `GetUserByID` nor `UpdateUserByID` selects or populates the
`created` column: the returned entity's `Created` field is the Go zero value
whatever the stored row holds, and `created` is absent from both column
lists. -/
theorem C9_created_never_selected (row : DBRow) :
    (getUserByID row).Created = 0 ∧
    (updateReturnedUser row).Created = 0 ∧
    "created" ∉ getUserQueryColumns ∧
    "created" ∉ updateReturningColumns :=
  ⟨rfl, rfl, by decide, by decide⟩

/-- C3: `ValidateUser` returns an error exactly when the first name is empty,
the last name is empty, or the email fails the syntax check; every user with
non-empty names and a well-formed email passes. -/
theorem C3_validateUser_error_iff (u : User) :
    validateUser u ≠ none ↔
      (u.FirstName = "" ∨ u.LastName = "" ∨ isValidEmail u.Email = false) := by
  unfold validateUser
  split_ifs with h1 h2 h3 <;> simp_all

/-- C4: absent fields of a `UserUpdate` are never validated — the three checks
apply only to present fields, and an all-absent update is accepted — and the
statement the builder generates assigns exactly the present-field list, so an
absent field's column never occurs among its assignments. -/
theorem C4_absent_fields_untouched (u : UserUpdate) (id : String) :
    (validateUserUpdate u = none ↔
      (∀ v, u.FirstName = some v → v ≠ "") ∧
      (∀ v, u.LastName = some v → v ≠ "") ∧
      (∀ v, u.Email = some v → isValidEmail v = true)) ∧
    buildUpdateQuery id u = renderUpdate id (setAssignments u) ∧
    (u.FirstName = none → "first_name" ∉ (setAssignments u).map Prod.fst) ∧
    (u.LastName = none → "last_name" ∉ (setAssignments u).map Prod.fst) ∧
    (u.Age = none → "age" ∉ (setAssignments u).map Prod.fst) ∧
    (u.Email = none → "email" ∉ (setAssignments u).map Prod.fst) := by
  obtain ⟨f, l, a, e⟩ := u
  refine ⟨?_, ?_, ?_, ?_, ?_, ?_⟩
  · cases f <;> cases l <;> cases e <;>
      (simp only [validateUserUpdate]; try split_ifs) <;> simp_all
  · cases f <;> cases l <;> cases a <;> cases e <;>
      (simp only [buildUpdateQuery, renderUpdate, setAssignments, joinFrags,
         List.map_cons, List.map_nil, List.length_cons, List.length_nil,
         String.append_empty, goDropLast2_append_comma]
       try simp [String.append_assoc]
       try simp [← String.append_assoc, goDropLast2_append_comma])
  · rintro rfl
    cases l <;> cases a <;> cases e <;> simp [setAssignments]
  · rintro rfl
    cases f <;> cases a <;> cases e <;> simp [setAssignments]
  · rintro rfl
    cases f <;> cases l <;> cases e <;> simp [setAssignments]
  · rintro rfl
    cases f <;> cases l <;> cases a <;> simp [setAssignments]

/-- C5: for an update with at least one present field, the built statement is
exactly the specification's: the present fields in the fixed order with
consecutive positional parameters from `$1`, the identity filter one past the
last assignment, and the post-update row requested back, with the parameter
list being the assignment values followed by the identity. -/
theorem C5_update_statement_shape (id : String) (u : UserUpdate)
    (h : hasPresentField u = true) :
    buildUpdateQuery id u = specUpdateQuery id u := by
  obtain ⟨f, l, a, e⟩ := u
  cases f <;> cases l <;> cases a <;> cases e <;>
    first
      | exact absurd h (by decide)
      | (simp only [buildUpdateQuery, specUpdateQuery, setAssignments, fragments, sepByComma,
           List.map_cons, List.map_nil, List.length_cons, List.length_nil,
           goDropLast2_append_comma]
         try simp [String.append_assoc]
         try simp [← String.append_assoc, goDropLast2_append_comma])

/-- Witness for C5 at a concrete update with a present first name and age. -/
theorem C5_update_statement_shape_witness :
    hasPresentField ⟨some "Ann", none, some 7, none⟩ = true ∧
    buildUpdateQuery "u1" ⟨some "Ann", none, some 7, none⟩ =
      specUpdateQuery "u1" ⟨some "Ann", none, some 7, none⟩ :=
  ⟨rfl, C5_update_statement_shape "u1" ⟨some "Ann", none, some 7, none⟩ rfl⟩

/-- Advisory message the spec reading of `Health` predicts: of the four
threshold conditions, checked in source order with each later hit overwriting
the message, the last one that holds wins; `It's healthy` when none holds. -/
def overallMessage (d : DBStats) : String :=
  if d.MaxLifetimeClosed > Int.tdiv d.OpenConnections 2 then
    "Many connections are being closed due to max lifetime, consider increasing max lifetime or revising the connection usage pattern."
  else if d.MaxIdleClosed > Int.tdiv d.OpenConnections 2 then
    "Many idle connections are being closed, consider revising the connection pool settings."
  else if d.WaitCount > 1000 then
    "The database has a high number of wait events, indicating potential bottlenecks."
  else if d.OpenConnections > 40 then
    "The database is experiencing heavy load."
  else "It's healthy"

/-- C10: a successful `Health` call returns a snapshot whose single advisory
message is that of the last threshold condition (in source order open
connections, wait count, idle-timeout closures, lifetime-timeout closures)
that holds, each later check overwriting the earlier message, and
`It's healthy` when none holds. -/
theorem C10_health_message_last_wins (d : DBStats) :
    (health none d).isReturned = true ∧
    (health none d).snapshot "message" = some (overallMessage d) ∧
    (health none d).snapshot "status" = some "up" := by
  refine ⟨rfl, ?_, ?_⟩
  · dsimp only [health, overallMessage, HealthResult.snapshot]
    split_ifs <;> rfl
  · dsimp only [health, HealthResult.snapshot]
    split_ifs <;> rfl

/-- Pool statistics of an idle pool, for concrete health evaluations. -/
def idleStats : DBStats :=
  { OpenConnections := 1, InUse := 0, Idle := 1, WaitCount := 0,
    WaitDuration := "0s", MaxIdleClosed := 0, MaxLifetimeClosed := 0 }

/-- C2 counterexample: the claim says a failed ping is reported to the caller
as a `down` snapshot rather than crashing; but on ping failure `Health` calls
`log.Fatalf`, which terminates the process, so at this concrete failing ping
the call never returns to the caller. -/
theorem C2_down_not_returned_counterexample :
    (health (some "connection refused") idleStats).isReturned = false :=
  rfl

/-- C2 amended: on every ping failure or timeout, `Health` records a snapshot
with status `down` and a non-empty error description, but then terminates the
process through `log.Fatalf` instead of returning that snapshot to the
caller. -/
theorem C2_down_reported_then_fatal (e : String) (d : DBStats) :
    (health (some e) d).isReturned = false ∧
    (health (some e) d).snapshot "status" = some "down" ∧
    (health (some e) d).snapshot "error" = some ("db down: " ++ e) ∧
    "db down: " ++ e ≠ "" := by
  refine ⟨rfl, rfl, rfl, fun h => ?_⟩
  have hd := congrArg String.data h
  rw [String.data_append] at hd
  exact absurd (List.append_eq_nil.mp hd).1 (by decide)

/-- Membership in `splits` is exactly being a decomposition. -/
theorem mem_splits (cs : List Char) (p : List Char × List Char) :
    p ∈ splits cs ↔ p.1 ++ p.2 = cs := by
  induction cs generalizing p with
  | nil =>
      obtain ⟨l, r⟩ := p
      simp [splits, List.append_eq_nil, Prod.ext_iff]
  | cons c cs ih =>
      obtain ⟨l, r⟩ := p
      simp only [splits, List.mem_cons, List.mem_map, Prod.mk.injEq]
      constructor
      · rintro (⟨hl, hr⟩ | ⟨⟨l', r'⟩, hq, hl, hr⟩)
        · subst hl; subst hr; rfl
        · subst hl; subst hr
          have h := (ih (l', r')).mp hq
          simpa using congrArg (List.cons c) h
      · intro h
        cases l with
        | nil =>
            exact Or.inl ⟨rfl, by simpa using h⟩
        | cons x l' =>
            rw [List.cons_append, List.cons.injEq] at h
            exact Or.inr ⟨(l', r), (ih (l', r)).mpr h.2, by rw [h.1], rfl⟩

/-- Specification-side shape of a valid email, in the spec's words: a
non-empty local part over `[A-Za-z0-9._%+-]`, an `@`, a non-empty domain part
over `[A-Za-z0-9.-]`, a literal dot, and a final label of at least two
alphabetic characters, with nothing before or after. -/
def emailShape (s : String) : Prop :=
  ∃ l d t : List Char,
    s.data = l ++ '@' :: (d ++ '.' :: t) ∧
    l ≠ [] ∧ (∀ c ∈ l, isLocalChar c = true) ∧
    d ≠ [] ∧ (∀ c ∈ d, isDomainChar c = true) ∧
    2 ≤ t.length ∧ (∀ c ∈ t, c.isAlpha = true)

/-- C7: the email-syntax check accepts a string exactly when it has the
`local@domain.tld` shape the spec describes. -/
theorem C7_email_syntax_shape (s : String) :
    isValidEmail s = true ↔ emailShape s := by
  constructor
  · intro h
    rw [isValidEmail, List.any_eq_true] at h
    obtain ⟨⟨l, r⟩, hmem, hp⟩ := h
    rw [mem_splits] at hmem
    cases r with
    | nil => simp [emailAt] at hp
    | cons c rest =>
        simp only [emailAt, Bool.and_eq_true, decide_eq_true_eq, List.all_eq_true,
          Bool.not_eq_true', List.isEmpty_eq_false_iff_exists_mem] at hp
        obtain ⟨⟨⟨hc, hne⟩, hall⟩, htail⟩ := hp
        rw [matchTail, List.any_eq_true] at htail
        obtain ⟨⟨d, r2⟩, hmem2, hq⟩ := htail
        rw [mem_splits] at hmem2
        cases r2 with
        | nil => simp [tailAt] at hq
        | cons c2 t =>
            simp only [tailAt, Bool.and_eq_true, decide_eq_true_eq, List.all_eq_true,
              Bool.not_eq_true', List.isEmpty_eq_false_iff_exists_mem] at hq
            obtain ⟨⟨⟨⟨hc2, hdne⟩, hdall⟩, htlen⟩, htall⟩ := hq
            subst hc; subst hc2
            refine ⟨l, d, t, ?_, ?_, hall, ?_, hdall, htlen, htall⟩
            · rw [← hmem, ← hmem2]
            · rintro rfl; simp at hne
            · rintro rfl; simp at hdne
  · rintro ⟨l, d, t, heq, hne, hall, hdne, hdall, htlen, htall⟩
    rw [isValidEmail, List.any_eq_true]
    refine ⟨(l, '@' :: (d ++ '.' :: t)), (mem_splits s.data _).mpr heq.symm, ?_⟩
    simp only [emailAt, Bool.and_eq_true, decide_eq_true_eq, List.all_eq_true,
      Bool.not_eq_true', List.isEmpty_eq_false_iff_exists_mem]
    refine ⟨⟨⟨trivial, ?_⟩, hall⟩, ?_⟩
    · cases l with
      | nil => exact absurd rfl hne
      | cons x xs => exact ⟨x, List.mem_cons_self x xs⟩
    · rw [matchTail, List.any_eq_true]
      refine ⟨(d, '.' :: t), (mem_splits _ _).mpr rfl, ?_⟩
      simp only [tailAt, Bool.and_eq_true, decide_eq_true_eq, List.all_eq_true,
        Bool.not_eq_true', List.isEmpty_eq_false_iff_exists_mem]
      refine ⟨⟨⟨⟨trivial, ?_⟩, hdall⟩, htlen⟩, htall⟩
      cases d with
      | nil => exact absurd rfl hdne
      | cons x xs => exact ⟨x, List.mem_cons_self x xs⟩

end Users
